import Mathlib

/-!
Shallow embedding of the `simple-chatbot-miniRAG` repository
(`src/simple_chatbot/memory.py`, `knowledge_base.py`, `chatbot.py`).

Python strings are modelled as lists of characters (`PyStr`), so that the
Python string operations (`lower`, `split`, `strip`, slicing, `startswith`)
become plain list functions.  Python float relevance scores are modelled as
exact rationals: the scores produced by the code are ratios of small keyword
counts.  Dictionaries with insertion-order iteration (Python `dict`) are
modelled as association lists; Python `set` is modelled as `Finset`.
-/

/-- A Python string, modelled as its list of characters. -/
abbrev PyStr := List Char

/-- Coerce a Lean string literal to the `PyStr` model. -/
def pys (s : String) : PyStr := s.toList

/-- Python `sep.join(parts)`. -/
def pyJoin (sep : PyStr) (parts : List PyStr) : PyStr :=
  List.intercalate sep parts

/-- Python `s.lower()` (character-wise lowering). -/
def pyLower (s : PyStr) : PyStr := s.map Char.toLower

/-- Python `s.split()` with no argument: split on whitespace runs,
dropping empty fragments. -/
def pySplitWhitespace (s : PyStr) : List PyStr :=
  (List.splitOnP (fun c => c.isWhitespace) s).filter (fun w => decide (w ≠ []))

/-- Python `s.strip(chars)`: remove the given characters from both ends. -/
def pyStripChars (chars : List Char) (s : PyStr) : PyStr :=
  List.rdropWhile (fun c => chars.contains c)
    (List.dropWhile (fun c => chars.contains c) s)

/-- Python `s.strip()` with no argument: remove whitespace from both ends. -/
def pyStripWs (s : PyStr) : PyStr :=
  List.rdropWhile (fun c => c.isWhitespace)
    (List.dropWhile (fun c => c.isWhitespace) s)

/-- Python `s.title()` restricted to alphabetic words: the first letter of
each alphabetic run is upper-cased and the rest lower-cased.  (Used on the
role strings "user", "assistant", "system".) -/
def pyTitleGo : Bool → List Char → List Char
  | _, [] => []
  | prevAlpha, c :: cs =>
      (if c.isAlpha then (if prevAlpha then c.toLower else c.toUpper) else c)
        :: pyTitleGo c.isAlpha cs

/-- Python `s.title()` over the `PyStr` model. -/
def pyTitle (s : PyStr) : PyStr := pyTitleGo false s

/-- Decimal rendering of a natural number, as in Python `f"{i}"`. -/
def natToPyStr (n : Nat) : PyStr := Nat.toDigits 10 n

/-! ### memory.py -/

/-- `ChatMessage` from `llm_client.py`: a role and a content string. -/
structure ChatMessage where
  role : PyStr
  content : PyStr
deriving DecidableEq, Repr

/-- `ConversationMemory` from `memory.py`: a memory-pair limit together with
the deque of stored messages (the deque is created with
`maxlen = memory_limit * 2`). -/
structure ConversationMemory where
  memory_limit : Nat
  messages : List ChatMessage
deriving DecidableEq, Repr

/-- `ConversationMemory.__init__`: empty message deque. -/
def ConversationMemory.init (memory_limit : Nat) : ConversationMemory :=
  ⟨memory_limit, []⟩

/-- `ConversationMemory.add_message`: append to the deque; a deque with
`maxlen = memory_limit * 2` silently drops the oldest element when the
append would exceed the bound. -/
def ConversationMemory.add_message (m : ConversationMemory)
    (role content : PyStr) : ConversationMemory :=
  { m with
    messages :=
      (m.messages ++ [ChatMessage.mk role content]).drop
        ((m.messages.length + 1) - m.memory_limit * 2) }

/-- `ConversationMemory.get_messages`: all stored messages in order. -/
def ConversationMemory.get_messages (m : ConversationMemory) : List ChatMessage :=
  m.messages

/-- `ConversationMemory.get_recent_messages`: `None` returns everything,
otherwise Python evaluates `list(self._messages)[-count:]`.  Note that for
`count = 0` the slice `[-0:]` is `[0:]`, the whole list. -/
def ConversationMemory.get_recent_messages (m : ConversationMemory)
    (count : Option Nat) : List ChatMessage :=
  match count with
  | none => m.get_messages
  | some c =>
      if c = 0 then m.messages
      else m.messages.drop (m.messages.length - c)

/-- `ConversationMemory.format_for_prompt`: render each retained message as
`"<Role.title()>: <content>"` joined by newlines, optionally skipping
system messages. -/
def ConversationMemory.format_for_prompt (m : ConversationMemory)
    (include_system : Bool) : PyStr :=
  pyJoin (pys "\n")
    ((m.messages.filter
        (fun msg => include_system || decide (msg.role ≠ pys "system"))).map
      (fun msg => pyTitle msg.role ++ pys ": " ++ msg.content))

/-- `ConversationMemory.clear`. -/
def ConversationMemory.clear (m : ConversationMemory) : ConversationMemory :=
  { m with messages := [] }

/-- `ConversationMemory.get_message_count`. -/
def ConversationMemory.get_message_count (m : ConversationMemory) : Nat :=
  m.messages.length

/-- The statistics record built by `get_conversation_summary`. -/
structure ConversationSummary where
  total_messages : Nat
  user_messages : Nat
  assistant_messages : Nat
  system_messages : Nat
deriving DecidableEq, Repr

/-- One loop iteration of `get_conversation_summary`:
`stats["total_messages"] += 1` followed by `stats[f"{role}_messages"] += 1`;
the second lookup raises `KeyError` (modelled as `none`) when the role is
not one of `user`, `assistant`, `system`. -/
def summaryStep (s : ConversationSummary) (role : PyStr) :
    Option ConversationSummary :=
  let s := { s with total_messages := s.total_messages + 1 }
  if role = pys "user" then
    some { s with user_messages := s.user_messages + 1 }
  else if role = pys "assistant" then
    some { s with assistant_messages := s.assistant_messages + 1 }
  else if role = pys "system" then
    some { s with system_messages := s.system_messages + 1 }
  else none

/-- `ConversationMemory.get_conversation_summary`: fold `summaryStep` over
the stored messages starting from all-zero counters; `none` models the
`KeyError` escaping the method. -/
def ConversationMemory.get_conversation_summary (m : ConversationMemory) :
    Option ConversationSummary :=
  m.messages.foldlM (fun s msg => summaryStep s msg.role) ⟨0, 0, 0, 0⟩

/-- Run a sequence of `add_message` calls (role, content pairs) in order. -/
def runAdds (m : ConversationMemory) (ops : List (PyStr × PyStr)) :
    ConversationMemory :=
  ops.foldl (fun mem rc => mem.add_message rc.1 rc.2) m

/-- Number of stored messages with the given role. -/
def countRole (m : ConversationMemory) (role : PyStr) : Nat :=
  (m.messages.filter (fun msg => decide (msg.role = role))).length

/-- The last `cap` elements of a list (all of it when it is shorter). -/
def lastN (cap : Nat) (l : List α) : List α := l.drop (l.length - cap)

/-! ### knowledge_base.py -/

/-- `KnowledgeEntry` (pydantic model): keywords, content, optional category.
The open `metadata` map is not used by any of the operations modelled here
and is omitted. -/
structure KnowledgeEntry where
  keywords : List PyStr
  content : PyStr
  category : Option PyStr
deriving DecidableEq, Repr

/-- `RetrievalResult` (pydantic model).  The relevance score, a Python
float ratio of small keyword counts, is modelled as an exact rational;
`matched_keywords`, built from a Python set, is modelled as a `Finset`. -/
structure RetrievalResult where
  entry_id : PyStr
  content : PyStr
  relevance_score : ℚ
  matched_keywords : Finset PyStr
  category : Option PyStr
deriving DecidableEq

/-- `SimpleKnowledgeBase` state: the `enabled` flag and the entry table
(`knowledge_data`, a Python dict modelled as an insertion-ordered
association list). -/
structure SimpleKnowledgeBase where
  enabled : Bool
  knowledge_data : List (PyStr × KnowledgeEntry)
deriving DecidableEq

/-- `SimpleKnowledgeBase._extract_keywords`: lowercase, split on
whitespace, keep words longer than two characters, and strip the fixed
punctuation characters from each kept word, collecting into a set.  The
length test happens on the word before stripping, exactly as in
`{word.strip(".,!?;:()[]\x7b\x7d") for word in words if len(word) > 2}`. -/
def extract_keywords (query : PyStr) : Finset PyStr :=
  (((pySplitWhitespace (pyLower query)).filter
      (fun w => decide (w.length > 2))).map
    (pyStripChars ['.', ',', '!', '?', ';', ':', '(', ')', '[', ']', '\x7b', '\x7d'])).toFinset

/-- The lowercased keyword set of an entry: `{kw.lower() for kw in entry.keywords}`. -/
def entryKeywordSet (e : KnowledgeEntry) : Finset PyStr :=
  (e.keywords.map pyLower).toFinset

/-- The loop body of `SimpleKnowledgeBase.search`: for each entry of the
table in order, intersect the query keywords with the entry's lowercased
keywords, and when the intersection is non-empty and the ratio score
clears the threshold, produce a `RetrievalResult`.  The score
`len(matched_keywords) / len(entry_keywords)` is the exact rational
`mkRat`, which equals the cast division (see `relevance_score_eq_div`). -/
def SimpleKnowledgeBase.searchCandidates (kb : SimpleKnowledgeBase)
    (query : PyStr) (min_relevance_score : ℚ) : List RetrievalResult :=
  let query_keywords := extract_keywords query
  kb.knowledge_data.filterMap (fun p =>
    let entry_keywords := entryKeywordSet p.2
    let matched_keywords := query_keywords ∩ entry_keywords
    if matched_keywords ≠ ∅ then
      let relevance_score : ℚ :=
        mkRat (matched_keywords.card) (entry_keywords.card)
      if min_relevance_score ≤ relevance_score then
        some ⟨p.1, p.2.content, relevance_score, matched_keywords, p.2.category⟩
      else none
    else none)

/-- Ordering used by `results.sort(key=lambda x: x.relevance_score,
reverse=True)`: descending by score. -/
def scoreGE (a b : RetrievalResult) : Prop :=
  b.relevance_score ≤ a.relevance_score

instance : DecidableRel scoreGE :=
  fun a b => inferInstanceAs (Decidable (b.relevance_score ≤ a.relevance_score))

instance : IsTotal RetrievalResult scoreGE :=
  ⟨fun a b => le_total b.relevance_score a.relevance_score⟩

instance : IsTrans RetrievalResult scoreGE :=
  ⟨fun _ _ _ h1 h2 => le_trans h2 h1⟩

/-- `SimpleKnowledgeBase.search`: empty on a disabled store or blank
query; otherwise score the entries, sort descending by score with a
stable sort (Python `list.sort` is stable; a stable sort is modelled by
insertion sort, which produces the same list), and truncate. -/
def SimpleKnowledgeBase.search (kb : SimpleKnowledgeBase) (query : PyStr)
    (max_results : Nat) (min_relevance_score : ℚ) : List RetrievalResult :=
  if ¬ kb.enabled ∨ pyStripWs query = [] then []
  else
    (List.insertionSort scoreGE (kb.searchCandidates query min_relevance_score)).take
      max_results

/-- `SimpleKnowledgeBase.format_context`: empty for no results, otherwise
an opening marker line, one numbered line per result (with the category
suffix only for a truthy category), and a closing marker line, joined by
newlines. -/
def SimpleKnowledgeBase.format_context (results : List RetrievalResult) : PyStr :=
  if results = [] then []
  else
    pyJoin (pys "\n")
      ([pys "[CONTEXTO RAG - Información relevante:]"]
        ++ results.enum.map (fun ir =>
            let category_info :=
              match ir.2.category with
              | some c => if c = [] then [] else pys " (" ++ c ++ pys ")"
              | none => []
            natToPyStr (ir.1 + 1) ++ pys ". " ++ ir.2.content ++ category_info)
        ++ [pys "[FIN CONTEXTO RAG]"])

/-- Failure modes of `_load_knowledge`: `FileNotFoundError` for a missing
file, `ValueError` for undecodable JSON or a failed entry validation. -/
inductive LoadError
  | notFound
  | valueError
deriving DecidableEq, Repr

/-- The observable content of the knowledge file at load time: missing,
JSON-undecodable, or a decoded ordered mapping in which each entry either
validates as a `KnowledgeEntry` (`some`) or fails pydantic validation
(`none`). -/
inductive RawKnowledgeFile
  | missing
  | invalidJson
  | parsed (entries : List (PyStr × Option KnowledgeEntry))
deriving DecidableEq, Repr

/-- Python dict assignment `table[k] = v`: replace in place when the key
exists (keeping its position), otherwise append. -/
def dictInsert (table : List (PyStr × KnowledgeEntry)) (k : PyStr)
    (v : KnowledgeEntry) : List (PyStr × KnowledgeEntry) :=
  if (table.map Prod.fst).contains k then
    table.map (fun p => if p.1 = k then (k, v) else p)
  else table ++ [(k, v)]

/-- The entry loop of `_load_knowledge`: insert validated entries one by
one into the table; the first validation failure aborts the loop with a
`ValueError`, leaving the insertions made so far in place. -/
def loadEntriesLoop :
    List (PyStr × Option KnowledgeEntry) → List (PyStr × KnowledgeEntry) →
      Except LoadError Unit × List (PyStr × KnowledgeEntry)
  | [], table => (Except.ok (), table)
  | (k, some v) :: rest, table => loadEntriesLoop rest (dictInsert table k v)
  | (_, none) :: _, table => (Except.error LoadError.valueError, table)

/-- `SimpleKnowledgeBase._load_knowledge`: missing file and bad JSON raise
before any mutation; a decoded file is inserted entry by entry into the
existing table.  The returned pair is (outcome, post-state). -/
def SimpleKnowledgeBase.load_knowledge (kb : SimpleKnowledgeBase)
    (file : RawKnowledgeFile) : Except LoadError Unit × SimpleKnowledgeBase :=
  match file with
  | RawKnowledgeFile.missing => (Except.error LoadError.notFound, kb)
  | RawKnowledgeFile.invalidJson => (Except.error LoadError.valueError, kb)
  | RawKnowledgeFile.parsed es =>
      let r := loadEntriesLoop es kb.knowledge_data
      (r.1, { kb with knowledge_data := r.2 })

/-- `SimpleKnowledgeBase.reload`: when enabled, first
`self.knowledge_data.clear()` and then `_load_knowledge()`; a no-op when
disabled. -/
def SimpleKnowledgeBase.reload (kb : SimpleKnowledgeBase)
    (file : RawKnowledgeFile) : Except LoadError Unit × SimpleKnowledgeBase :=
  if kb.enabled then
    SimpleKnowledgeBase.load_knowledge { kb with knowledge_data := [] } file
  else (Except.ok (), kb)

/-- Whether the file decodes and every entry validates, so that
`_load_knowledge` succeeds. -/
def fileLoadsClean : RawKnowledgeFile → Bool
  | RawKnowledgeFile.parsed es => es.all (fun p => p.2.isSome)
  | _ => false

/-- The table observable after `reload` on an enabled store: empty for a
missing or undecodable file, and otherwise the dict built from the longest
prefix of entries that validate. -/
def expectedReloadTable : RawKnowledgeFile → List (PyStr × KnowledgeEntry)
  | RawKnowledgeFile.parsed es =>
      ((es.takeWhile (fun p => p.2.isSome)).filterMap
          (fun p => p.2.map (fun v => (p.1, v)))).foldl
        (fun t kv => dictInsert t kv.1 kv.2) []
  | _ => []

/-! ### chatbot.py -/

/-- The two backend failure classes caught by `SimpleChatbot.chat`
(`OllamaConnectionError`, `ModelNotFoundError`), each carrying the message
`str(e)` it renders to. -/
inductive BackendError
  | connectionError (detail : PyStr)
  | modelNotFound (detail : PyStr)
deriving DecidableEq, Repr

/-- The `str(e)` rendering of a backend error. -/
def backendErrorMessage : BackendError → PyStr
  | BackendError.connectionError d => d
  | BackendError.modelNotFound d => d

/-- The prefixes removed by `SimpleChatbot._clean_response`. -/
def prefixes_to_remove : List PyStr :=
  [pys "Assistant:", pys "assistant:", pys "AI:", pys "ai:",
   pys "Bot:", pys "bot:"]

/-- The loop of `_clean_response`: on the first prefix that matches, drop
it and strip and stop; otherwise try the next prefix. -/
def removeRolePrefixLoop : List PyStr → PyStr → PyStr
  | [], cleaned => cleaned
  | p :: ps, cleaned =>
      if p.isPrefixOf cleaned then pyStripWs (cleaned.drop p.length)
      else removeRolePrefixLoop ps cleaned

/-- `SimpleChatbot._clean_response`: strip whitespace, then remove at most
one leading role prefix (with the whitespace after it). -/
def clean_response (response : PyStr) : PyStr :=
  removeRolePrefixLoop prefixes_to_remove (pyStripWs response)

/-- The `SimpleChatbot` state used by the turn pipeline: conversation
memory, knowledge base, and the two retrieval configuration values. -/
structure SimpleChatbot where
  memory : ConversationMemory
  knowledge_base : SimpleKnowledgeBase
  rag_max_results : Nat
  rag_min_relevance : ℚ
deriving DecidableEq

/-- `SimpleChatbot._get_rag_context`: empty when the knowledge base is
disabled; otherwise search, and format the results when there are any. -/
def SimpleChatbot.get_rag_context (bot : SimpleChatbot) (user_input : PyStr) :
    PyStr :=
  if ¬ bot.knowledge_base.enabled then []
  else
    let results :=
      bot.knowledge_base.search user_input bot.rag_max_results
        bot.rag_min_relevance
    if results ≠ [] then SimpleKnowledgeBase.format_context results else []

/-- `SimpleChatbot._format_prompt`: newline-join of the non-empty history
block, the non-empty RAG context block, the `User:` line, and the
`Assistant:` cue. -/
def SimpleChatbot.format_prompt (bot : SimpleChatbot) (user_input : PyStr) :
    PyStr :=
  let conversation_history := bot.memory.format_for_prompt true
  let rag_context := bot.get_rag_context user_input
  pyJoin (pys "\n")
    ((if conversation_history ≠ [] then [conversation_history] else [])
      ++ (if rag_context ≠ [] then [rag_context] else [])
      ++ [pys "User: " ++ user_input, pys "Assistant:"])

/-- `SimpleChatbot.chat`: blank input short-circuits; otherwise the user
message is appended to memory, the prompt is assembled, and the backend is
called.  On success the cleaned response is appended as the assistant
message and returned; on a caught backend error an apologetic message is
returned and nothing further is written to memory. -/
def SimpleChatbot.chat (bot : SimpleChatbot)
    (backend : PyStr → Except BackendError PyStr) (user_input : PyStr) :
    PyStr × SimpleChatbot :=
  if pyStripWs user_input = [] then
    (pys "I didn't receive any input. Could you please say something?", bot)
  else
    let bot1 :=
      { bot with memory := bot.memory.add_message (pys "user") user_input }
    match backend (bot1.format_prompt user_input) with
    | Except.ok response =>
        let cleaned := clean_response response
        (cleaned,
          { bot1 with
            memory := bot1.memory.add_message (pys "assistant") cleaned })
    | Except.error e =>
        (pys "I'm sorry, I encountered an error: " ++ backendErrorMessage e,
          bot1)

/-- The spec's description of query tokenization, for comparison with the
code: strip the punctuation from each token first, then discard tokens of
length at most two. -/
def spec_extract_keywords_strip_first (query : PyStr) : Finset PyStr :=
  (((pySplitWhitespace (pyLower query)).map
      (pyStripChars ['.', ',', '!', '?', ';', ':', '(', ')', '[', ']', '\x7b', '\x7d'])).filter
    (fun w => decide (w.length > 2))).toFinset

/-- The amended description of query tokenization: discard tokens of
pre-strip length at most two, then strip the punctuation, collecting into
a set. -/
def spec_extract_keywords_filter_first (query : PyStr) : Finset PyStr :=
  (((pySplitWhitespace (pyLower query)).filter
      (fun w => decide (w.length > 2))).toFinset).image
    (pyStripChars ['.', ',', '!', '?', ';', ':', '(', ')', '[', ']', '\x7b', '\x7d'])

/-! ### Lemmas about the memory model -/

theorem add_message_messages (m : ConversationMemory) (r c : PyStr) :
    (m.add_message r c).messages
      = lastN (m.memory_limit * 2) (m.messages ++ [ChatMessage.mk r c]) := by
  simp [ConversationMemory.add_message, lastN]

theorem add_message_limit (m : ConversationMemory) (r c : PyStr) :
    (m.add_message r c).memory_limit = m.memory_limit := rfl

theorem lastN_append_lastN (cap : Nat) (A B : List α) :
    lastN cap (lastN cap A ++ B) = lastN cap (A ++ B) := by
  have hd : A.length - cap ≤ A.length := Nat.sub_le _ _
  unfold lastN
  rw [← List.drop_append_of_le_length hd, List.drop_drop]
  congr 1
  simp only [List.length_drop, List.length_append]
  omega

theorem lastN_length_le (cap : Nat) (l : List α) : (lastN cap l).length ≤ cap := by
  simp only [lastN, List.length_drop]
  omega

theorem add_message_length_le (m : ConversationMemory) (r c : PyStr) :
    (m.add_message r c).messages.length ≤ (m.add_message r c).memory_limit * 2 := by
  rw [add_message_messages, add_message_limit]
  exact lastN_length_le _ _

theorem runAdds_messages (ops : List (PyStr × PyStr)) (m : ConversationMemory)
    (h : m.messages.length ≤ m.memory_limit * 2) :
    (runAdds m ops).messages
      = lastN (m.memory_limit * 2)
          (m.messages ++ ops.map (fun rc => ChatMessage.mk rc.1 rc.2))
      ∧ (runAdds m ops).memory_limit = m.memory_limit := by
  induction ops generalizing m with
  | nil =>
      refine ⟨?_, rfl⟩
      simp [runAdds, lastN, Nat.sub_eq_zero_of_le h]
  | cons rc rest ih =>
      have hstep : runAdds m (rc :: rest) = runAdds (m.add_message rc.1 rc.2) rest := rfl
      obtain ⟨h1, h2⟩ := ih (m.add_message rc.1 rc.2) (add_message_length_le m rc.1 rc.2)
      rw [hstep, h1, h2, add_message_limit, add_message_messages,
        lastN_append_lastN]
      refine ⟨?_, rfl⟩
      simp

theorem summaryFold (msgs : List ChatMessage) (s0 : ConversationSummary)
    (h : ∀ msg ∈ msgs, msg.role = pys "user" ∨ msg.role = pys "assistant"
      ∨ msg.role = pys "system")
    (hs : s0.total_messages
      = s0.user_messages + s0.assistant_messages + s0.system_messages) :
    ∃ s, msgs.foldlM (fun s msg => summaryStep s msg.role) s0 = some s ∧
      s.total_messages
        = s.user_messages + s.assistant_messages + s.system_messages := by
  induction msgs generalizing s0 with
  | nil => exact ⟨s0, rfl, hs⟩
  | cons msg rest ih =>
      rcases h msg (List.mem_cons_self _ _) with hr | hr | hr <;>
        · simp only [List.foldlM_cons, summaryStep, hr, if_pos, if_neg,
            reduceIte, Option.some_bind]
          exact ih _ (fun m hm => h m (List.mem_cons_of_mem _ hm))
            (by simp; omega)

/-! ### Claim C1 -/

/-- C1: for every memory limit `L` and every sequence of more than `2·L`
`add_message` operations on a fresh conversation memory with limit `L`,
the retained message count is `2·L` and the retained messages are exactly
the most recent `2·L` added messages in insertion order.  Eviction is a
total operation (front drop, no error) and is role-blind, so it applies
to an early system message as well. -/
theorem C1_memory_eviction (L : Nat) (ops : List (PyStr × PyStr))
    (h : ops.length > 2 * L) :
    (runAdds (ConversationMemory.init L) ops).messages.length = 2 * L ∧
    (runAdds (ConversationMemory.init L) ops).messages
      = (ops.map (fun rc => ChatMessage.mk rc.1 rc.2)).drop
          (ops.length - 2 * L) := by
  obtain ⟨hm, -⟩ :=
    runAdds_messages ops (ConversationMemory.init L)
      (by simp [ConversationMemory.init])
  have h1 : (ConversationMemory.init L).memory_limit = L := rfl
  have h2 : (ConversationMemory.init L).messages = [] := rfl
  rw [h1, h2, List.nil_append] at hm
  constructor
  · rw [hm]
    simp only [lastN, List.length_drop, List.length_map]
    omega
  · rw [hm]
    simp only [lastN, List.length_map]
    congr 1
    omega

theorem C1_memory_eviction_witness :
    ([(pys "system", pys "s"), (pys "user", pys "a"),
        (pys "assistant", pys "b")] : List (PyStr × PyStr)).length > 2 * 1 ∧
    ((runAdds (ConversationMemory.init 1)
        [(pys "system", pys "s"), (pys "user", pys "a"),
          (pys "assistant", pys "b")]).messages.length = 2 * 1 ∧
      (runAdds (ConversationMemory.init 1)
          [(pys "system", pys "s"), (pys "user", pys "a"),
            (pys "assistant", pys "b")]).messages
        = (([(pys "system", pys "s"), (pys "user", pys "a"),
              (pys "assistant", pys "b")] : List (PyStr × PyStr)).map
            (fun rc => ChatMessage.mk rc.1 rc.2)).drop
            (([(pys "system", pys "s"), (pys "user", pys "a"),
                (pys "assistant", pys "b")] : List (PyStr × PyStr)).length
              - 2 * 1)) :=
  ⟨by decide,
    C1_memory_eviction 1
      [(pys "system", pys "s"), (pys "user", pys "a"),
        (pys "assistant", pys "b")] (by decide)⟩

/-! ### Claim C9 -/

/-- C9 counterexample: the claim says `recent(0)` returns the empty
sequence, but the code evaluates `list(...)[-0:]`, which is the whole
list: on a memory holding one message, `get_recent_messages 0` is
non-empty. -/
theorem C9_recent_zero_counterexample :
    (ConversationMemory.init 10 |>.add_message (pys "user")
        (pys "hi")).get_recent_messages (some 0) ≠ [] := by
  decide

/-- C9 amended: `recent(None)` returns all messages; for `n ≥ 1`,
`recent(n)` returns exactly the last `min(n, count)` stored messages in
oldest-to-newest order; but `recent(0)` returns all messages (the Python
slice `[-0:]` is `[0:]`), not the empty sequence.  The operation is a
pure read: the stored messages are left unchanged. -/
theorem C9_get_recent_messages (mem : ConversationMemory) (n : Nat) :
    mem.get_recent_messages none = mem.messages ∧
    mem.get_recent_messages (some 0) = mem.messages ∧
    mem.get_recent_messages (some (n + 1))
      = mem.messages.drop (mem.messages.length - (n + 1)) ∧
    (mem.get_recent_messages (some (n + 1))).length
      = min (n + 1) mem.messages.length := by
  refine ⟨rfl, by simp [ConversationMemory.get_recent_messages], ?_, ?_⟩
  · simp [ConversationMemory.get_recent_messages]
  · simp [ConversationMemory.get_recent_messages]
    omega

/-! ### Claim C10 -/

/-- C10: `add_message` accepts any role string, but
`get_conversation_summary` is total only when every stored role is one of
`user`, `assistant`, `system` — and then the total count is the sum of
the three per-role counts — while a reachable state holding a message
with role `moderator` makes the summary fail with a key lookup error
(modelled as `none`). -/
theorem C10_summary_totality (mem : ConversationMemory)
    (h : ∀ msg ∈ mem.messages, msg.role = pys "user"
      ∨ msg.role = pys "assistant" ∨ msg.role = pys "system") :
    (∃ s, mem.get_conversation_summary = some s ∧
      s.total_messages
        = s.user_messages + s.assistant_messages + s.system_messages) ∧
    (ConversationMemory.init 10 |>.add_message (pys "moderator")
        (pys "x")).get_conversation_summary = none := by
  refine ⟨summaryFold mem.messages ⟨0, 0, 0, 0⟩ h rfl, by decide⟩

theorem C10_summary_totality_witness :
    (∀ msg ∈ (ConversationMemory.init 2 |>.add_message (pys "user") (pys "q")
        |>.add_message (pys "assistant") (pys "a")).messages,
      msg.role = pys "user" ∨ msg.role = pys "assistant"
        ∨ msg.role = pys "system") ∧
    ((∃ s, (ConversationMemory.init 2 |>.add_message (pys "user") (pys "q")
        |>.add_message (pys "assistant") (pys "a")).get_conversation_summary
          = some s ∧
      s.total_messages
        = s.user_messages + s.assistant_messages + s.system_messages) ∧
    (ConversationMemory.init 10 |>.add_message (pys "moderator")
        (pys "x")).get_conversation_summary = none) :=
  ⟨by decide,
    C10_summary_totality
      (ConversationMemory.init 2 |>.add_message (pys "user") (pys "q")
        |>.add_message (pys "assistant") (pys "a")) (by decide)⟩

/-! ### Lemmas about stripping and response cleaning -/

theorem dropWhile_of_prefix_of_fix (p : α → Bool) {A m : List α}
    (hfix : List.dropWhile p A = A) (hpre : m <+: A) :
    List.dropWhile p m = m := by
  obtain ⟨t, ht⟩ := hpre
  cases m with
  | nil => rfl
  | cons c cs =>
      have hpc : ¬ p c = true := by
        intro hc
        rw [← ht, List.cons_append, List.dropWhile_cons] at hfix
        simp only [hc, if_true] at hfix
        have hle := (List.dropWhile_suffix (l := cs ++ t) p).length_le
        have hlen := congrArg List.length hfix
        simp only [List.length_cons, List.length_append] at hlen hle
        omega
      rw [List.dropWhile_cons]
      simp [hpc]

theorem pyStripWs_idem (s : PyStr) : pyStripWs (pyStripWs s) = pyStripWs s := by
  unfold pyStripWs
  rw [dropWhile_of_prefix_of_fix _ (List.dropWhile_idempotent _ _)
    (List.rdropWhile_prefix _ _)]
  exact List.rdropWhile_idempotent _ _

theorem removeRolePrefixLoop_no_match (ps : List PyStr) (s : PyStr)
    (h : ∀ p ∈ ps, ¬ (p.isPrefixOf s = true)) :
    removeRolePrefixLoop ps s = s := by
  induction ps with
  | nil => rfl
  | cons p rest ih =>
      rw [removeRolePrefixLoop, if_neg (h p (List.mem_cons_self _ _))]
      exact ih fun q hq => h q (List.mem_cons_of_mem _ hq)

theorem removeRolePrefixLoop_stripped (ps : List PyStr) (s : PyStr)
    (h : pyStripWs s = s) :
    pyStripWs (removeRolePrefixLoop ps s) = removeRolePrefixLoop ps s := by
  induction ps with
  | nil => exact h
  | cons p rest ih =>
      rw [removeRolePrefixLoop]
      split
      · exact pyStripWs_idem _
      · exact ih

theorem clean_response_stripped (x : PyStr) :
    pyStripWs (clean_response x) = clean_response x := by
  unfold clean_response
  exact removeRolePrefixLoop_stripped _ _ (pyStripWs_idem x)

/-! ### Claim C5 -/

/-- C5 counterexample: `_clean_response` is not idempotent.  On a response
carrying a doubled role marker, the first cleaning removes only the first
`Assistant:` token, and a second cleaning removes the second one, so
`clean(clean(x)) ≠ clean(x)`. -/
theorem C5_clean_not_idempotent :
    clean_response (clean_response (pys "Assistant: Assistant: hi"))
      ≠ clean_response (pys "Assistant: Assistant: hi") := by
  decide

/-- C5 amended: cleaning strips surrounding whitespace and removes at most
one leading role-prefix token together with the whitespace following it;
it is idempotent exactly on the inputs whose cleaned form does not itself
begin with one of the role prefixes (in particular, re-cleaning an
already-clean string, one with no leading role prefix, is a no-op). -/
theorem C5_clean_conditional_idempotent (x : PyStr)
    (h : ∀ p ∈ prefixes_to_remove,
      ¬ (p.isPrefixOf (clean_response x) = true)) :
    clean_response (clean_response x) = clean_response x := by
  conv_lhs => rw [clean_response, clean_response_stripped]
  exact removeRolePrefixLoop_no_match _ _ h

theorem C5_clean_conditional_idempotent_witness :
    (∀ p ∈ prefixes_to_remove,
      ¬ (p.isPrefixOf (clean_response (pys "  Bot:  hello there  ")) = true)) ∧
    clean_response (clean_response (pys "  Bot:  hello there  "))
      = clean_response (pys "  Bot:  hello there  ") :=
  ⟨by decide, C5_clean_conditional_idempotent (pys "  Bot:  hello there  ")
    (by decide)⟩

/-! ### Claim C3 -/

theorem list_toFinset_map {α β : Type} [DecidableEq α] [DecidableEq β]
    (f : α → β) (l : List α) :
    (l.map f).toFinset = l.toFinset.image f := by
  ext x
  simp

/-- C3 counterexample: the claim says tokens are punctuation-stripped
first and then tokens of length at most two are discarded, so no token of
stripped length at most two can appear.  The code tests the length before
stripping: on the query `"is."` the word has length three, survives the
filter, and is then stripped to the two-character token `"is"`, which
does appear in the result. -/
theorem C3_tokenize_counterexample :
    extract_keywords (pys "is.") ≠ spec_extract_keywords_strip_first (pys "is.")
      ∧ pys "is" ∈ extract_keywords (pys "is.")
      ∧ (pys "is").length ≤ 2 := by
  refine ⟨by decide, by decide, by decide⟩

/-- C3 amended: query tokenization lowercases, splits on whitespace,
discards tokens whose length BEFORE punctuation stripping is at most two,
then strips the fixed surrounding punctuation characters from each
remaining token, with duplicates collapsed into a set (so a token whose
stripped length is at most two can appear when its unstripped length was
at least three). -/
theorem C3_tokenize_amended (query : PyStr) :
    extract_keywords query = spec_extract_keywords_filter_first query := by
  unfold extract_keywords spec_extract_keywords_filter_first
  exact list_toFinset_map _ _

/-! ### Lemmas about knowledge loading -/

theorem loadEntriesLoop_spec (es : List (PyStr × Option KnowledgeEntry))
    (table : List (PyStr × KnowledgeEntry)) :
    (loadEntriesLoop es table).2
      = ((es.takeWhile (fun p => p.2.isSome)).filterMap
          (fun p => p.2.map (fun v => (p.1, v)))).foldl
        (fun t kv => dictInsert t kv.1 kv.2) table
      ∧ ((loadEntriesLoop es table).1 = Except.ok ()
          ↔ es.all (fun p => p.2.isSome) = true) := by
  induction es generalizing table with
  | nil => simp [loadEntriesLoop]
  | cons e rest ih =>
      rcases e with ⟨k, v⟩
      cases v with
      | some w =>
          obtain ⟨h1, h2⟩ := ih (dictInsert table k w)
          refine ⟨?_, ?_⟩
          · rw [loadEntriesLoop, h1]
            simp [List.takeWhile_cons]
          · rw [loadEntriesLoop]
            simp only [List.all_cons, Option.isSome_some, Bool.true_and]
            exact h2
      | none =>
          refine ⟨by simp [loadEntriesLoop], ?_⟩
          simp [loadEntriesLoop]

instance : DecidableEq (Except LoadError Unit) := fun a b =>
  match a, b with
  | Except.ok (), Except.ok () => isTrue rfl
  | Except.ok (), Except.error _ => isFalse (by simp)
  | Except.error _, Except.ok () => isFalse (by simp)
  | Except.error x, Except.error y =>
      if h : x = y then isTrue (by rw [h]) else isFalse (by simp [h])

/-! ### Claim C7 -/

/-- C7 counterexample: reload is not atomic on failure.  An enabled store
holding one entry, reloaded against a missing file, fails with the load
error but leaves the table empty rather than keeping the previously
loaded entries: the claim's failure branch (previous table unchanged) is
false. -/
theorem C7_reload_counterexample :
    (SimpleKnowledgeBase.reload
        ⟨true, [(pys "a", ⟨[pys "k"], pys "c", none⟩)]⟩
        RawKnowledgeFile.missing).1 = Except.error LoadError.notFound
      ∧ (SimpleKnowledgeBase.reload
          ⟨true, [(pys "a", ⟨[pys "k"], pys "c", none⟩)]⟩
          RawKnowledgeFile.missing).2.knowledge_data
        ≠ [(pys "a", ⟨[pys "k"], pys "c", none⟩)] := by
  refine ⟨by decide, by decide⟩

/-- C7 amended: on an enabled store, `reload` clears the table before
loading.  It succeeds exactly when the file decodes and every entry
validates, and then the table is wholesale the parsed entries; on failure
the old table is never retained: a missing or undecodable file leaves the
table empty, and a mid-file validation failure leaves exactly the valid
prefix of entries, so a partially loaded table is observable. -/
theorem C7_reload_replaces (kb : SimpleKnowledgeBase)
    (file : RawKnowledgeFile) (h : kb.enabled = true) :
    ((kb.reload file).1 = Except.ok () ↔ fileLoadsClean file = true)
      ∧ (kb.reload file).2.knowledge_data = expectedReloadTable file
      ∧ (kb.reload file).2.enabled = true := by
  unfold SimpleKnowledgeBase.reload
  rw [h]
  simp only [if_true]
  cases file with
  | missing => simp [SimpleKnowledgeBase.load_knowledge, fileLoadsClean,
      expectedReloadTable, h]
  | invalidJson => simp [SimpleKnowledgeBase.load_knowledge, fileLoadsClean,
      expectedReloadTable, h]
  | parsed es =>
      obtain ⟨h1, h2⟩ := loadEntriesLoop_spec es []
      unfold SimpleKnowledgeBase.load_knowledge
      simp only [fileLoadsClean, expectedReloadTable]
      exact ⟨h2, h1, trivial⟩

theorem C7_reload_replaces_witness :
    ((⟨true, [(pys "a", ⟨[pys "k"], pys "c", none⟩)]⟩ :
        SimpleKnowledgeBase).enabled = true) ∧
    (((SimpleKnowledgeBase.reload
          ⟨true, [(pys "a", ⟨[pys "k"], pys "c", none⟩)]⟩
          (RawKnowledgeFile.parsed
            [(pys "x", some ⟨[pys "q"], pys "d", none⟩)])).1 = Except.ok ()
        ↔ fileLoadsClean (RawKnowledgeFile.parsed
            [(pys "x", some ⟨[pys "q"], pys "d", none⟩)]) = true)
      ∧ (SimpleKnowledgeBase.reload
          ⟨true, [(pys "a", ⟨[pys "k"], pys "c", none⟩)]⟩
          (RawKnowledgeFile.parsed
            [(pys "x", some ⟨[pys "q"], pys "d", none⟩)])).2.knowledge_data
        = expectedReloadTable (RawKnowledgeFile.parsed
            [(pys "x", some ⟨[pys "q"], pys "d", none⟩)])
      ∧ (SimpleKnowledgeBase.reload
          ⟨true, [(pys "a", ⟨[pys "k"], pys "c", none⟩)]⟩
          (RawKnowledgeFile.parsed
            [(pys "x", some ⟨[pys "q"], pys "d", none⟩)])).2.enabled = true) :=
  ⟨rfl, C7_reload_replaces
    ⟨true, [(pys "a", ⟨[pys "k"], pys "c", none⟩)]⟩
    (RawKnowledgeFile.parsed [(pys "x", some ⟨[pys "q"], pys "d", none⟩)])
    rfl⟩

/-! ### Lemmas about search -/

theorem relevance_score_eq_div (m n : Nat) :
    (mkRat m n : ℚ) = (m : ℚ) / (n : ℚ) := by
  rw [Rat.mkRat_eq_div]
  push_cast
  ring

theorem mem_searchCandidates {kb : SimpleKnowledgeBase} {query : PyStr}
    {minr : ℚ} {r : RetrievalResult}
    (hr : r ∈ kb.searchCandidates query minr) :
    ∃ p ∈ kb.knowledge_data,
      r = ⟨p.1, p.2.content,
            mkRat (extract_keywords query ∩ entryKeywordSet p.2).card
              (entryKeywordSet p.2).card,
            extract_keywords query ∩ entryKeywordSet p.2, p.2.category⟩
        ∧ extract_keywords query ∩ entryKeywordSet p.2 ≠ ∅
        ∧ minr ≤ mkRat (extract_keywords query ∩ entryKeywordSet p.2).card
            (entryKeywordSet p.2).card := by
  simp only [SimpleKnowledgeBase.searchCandidates, List.mem_filterMap] at hr
  obtain ⟨p, hp, hcond⟩ := hr
  refine ⟨p, hp, ?_⟩
  by_cases h1 : extract_keywords query ∩ entryKeywordSet p.2 ≠ ∅
  · rw [if_pos h1] at hcond
    by_cases h2 : minr ≤ mkRat (extract_keywords query ∩ entryKeywordSet p.2).card
        (entryKeywordSet p.2).card
    · rw [if_pos h2] at hcond
      exact ⟨(Option.some.inj hcond).symm, h1, h2⟩
    · rw [if_neg h2] at hcond
      cases hcond
  · rw [if_neg h1] at hcond
    cases hcond

theorem mem_search {kb : SimpleKnowledgeBase} {query : PyStr}
    {maxr : Nat} {minr : ℚ} {r : RetrievalResult}
    (hr : r ∈ kb.search query maxr minr) :
    r ∈ kb.searchCandidates query minr := by
  unfold SimpleKnowledgeBase.search at hr
  split at hr
  · cases hr
  · have hr' := (List.take_sublist _ _).mem hr
    exact ((List.perm_insertionSort scoreGE _).mem_iff).mp hr'

theorem insertionSort_filter_eq (l : List RetrievalResult) (q : ℚ) :
    (List.insertionSort scoreGE l).filter
        (fun r => decide (r.relevance_score = q))
      = l.filter (fun r => decide (r.relevance_score = q)) := by
  have hall : ∀ a ∈ l.filter (fun r : RetrievalResult =>
      decide (r.relevance_score = q)), a.relevance_score = q := by
    intro a ha
    simpa using List.of_mem_filter ha
  have hpair : (l.filter (fun r : RetrievalResult =>
      decide (r.relevance_score = q))).Pairwise scoreGE := by
    refine List.pairwise_of_forall_mem_list ?_
    intro a ha b hb
    have ha' := hall a ha
    have hb' := hall b hb
    simp only [scoreGE, ha', hb', le_refl]
  have hsub : List.Sublist
      (l.filter (fun r : RetrievalResult => decide (r.relevance_score = q)))
      (List.insertionSort scoreGE l) :=
    List.sublist_insertionSort hpair (List.filter_sublist l)
  have hfix : (l.filter (fun r : RetrievalResult =>
        decide (r.relevance_score = q))).filter
        (fun r => decide (r.relevance_score = q))
      = l.filter (fun r => decide (r.relevance_score = q)) := by
    apply List.filter_eq_self.mpr
    intro a ha
    exact List.of_mem_filter
      (p := fun r : RetrievalResult => decide (r.relevance_score = q)) ha
  have hsub2 := List.Sublist.filter
    (fun r : RetrievalResult => decide (r.relevance_score = q)) hsub
  rw [hfix] at hsub2
  have hperm := List.Perm.filter
    (fun r : RetrievalResult => decide (r.relevance_score = q))
    (List.perm_insertionSort scoreGE l)
  exact (List.Sublist.eq_of_length hsub2 hperm.length_eq.symm).symm

theorem filter_take_isPrefix (p : α → Bool) (n : Nat) (l : List α) :
    (l.take n).filter p <+: l.filter p := by
  conv_rhs => rw [← List.take_append_drop n l]
  rw [List.filter_append]
  exact List.prefix_append _ _

/-! ### Claim C2 -/

/-- C2: every result returned by `search` corresponds to a stored entry,
its `matched_keywords` is the non-empty intersection of the query token
set with the entry's lowercased deduplicated keyword set, its
`relevance_score` equals `|matched| / |entry keywords|` and lies in
`[0, 1]`; and an entry with empty intersection is never present in the
result list (under the dict invariant that entry ids are unique). -/
theorem C2_search_scores (kb : SimpleKnowledgeBase) (query : PyStr)
    (max_results : Nat) (min_relevance_score : ℚ)
    (hnodup : (kb.knowledge_data.map Prod.fst).Nodup) :
    (∀ r ∈ kb.search query max_results min_relevance_score,
      ∃ p ∈ kb.knowledge_data,
        r.entry_id = p.1
          ∧ r.matched_keywords = extract_keywords query ∩ entryKeywordSet p.2
          ∧ r.matched_keywords ≠ ∅
          ∧ r.relevance_score
              = (r.matched_keywords.card : ℚ) / ((entryKeywordSet p.2).card : ℚ)
          ∧ 0 ≤ r.relevance_score ∧ r.relevance_score ≤ 1)
    ∧ (∀ p ∈ kb.knowledge_data,
        extract_keywords query ∩ entryKeywordSet p.2 = ∅ →
          ∀ r ∈ kb.search query max_results min_relevance_score,
            r.entry_id ≠ p.1) := by
  constructor
  · intro r hr
    obtain ⟨p, hp, hre, hne, hmin⟩ := mem_searchCandidates (mem_search hr)
    refine ⟨p, hp, ?_⟩
    subst hre
    refine ⟨rfl, rfl, hne, relevance_score_eq_div _ _, ?_, ?_⟩
    · show (0 : ℚ) ≤ mkRat _ _
      rw [relevance_score_eq_div]
      positivity
    · have hsubset : (extract_keywords query ∩ entryKeywordSet p.2)
          ⊆ entryKeywordSet p.2 := Finset.inter_subset_right
      have hcardle := Finset.card_le_card hsubset
      have hpos : 0 < (entryKeywordSet p.2).card := by
        have h0 := Finset.card_pos.mpr (Finset.nonempty_iff_ne_empty.mpr hne)
        omega
      show mkRat _ _ ≤ (1 : ℚ)
      rw [relevance_score_eq_div,
        div_le_one (by exact_mod_cast hpos)]
      exact_mod_cast hcardle
  · intro p hp hempty r hr hid
    obtain ⟨p', hp', hre, hne, -⟩ := mem_searchCandidates (mem_search hr)
    have hpp : p.1 = p'.1 := by rw [← hid, hre]
    have hp_eq : p = p' := List.inj_on_of_nodup_map hnodup hp hp' hpp
    exact hne (hp_eq ▸ hempty)

/-- A concrete two-entry knowledge base used by the witnesses. -/
def kbW : SimpleKnowledgeBase :=
  ⟨true,
    [(pys "thorne",
       ⟨[pys "Aris", pys "thorne"], pys "Dr. Thorne is a character.",
         some (pys "character")⟩),
     (pys "python",
       ⟨[pys "python", pys "code"], pys "Python is a language.", none⟩)]⟩

theorem C2_search_scores_witness :
    ((kbW.knowledge_data.map Prod.fst).Nodup) ∧
    ((∀ r ∈ kbW.search (pys "Who is aris thorne?") 3 (mkRat 1 10),
      ∃ p ∈ kbW.knowledge_data,
        r.entry_id = p.1
          ∧ r.matched_keywords
              = extract_keywords (pys "Who is aris thorne?")
                  ∩ entryKeywordSet p.2
          ∧ r.matched_keywords ≠ ∅
          ∧ r.relevance_score
              = (r.matched_keywords.card : ℚ) / ((entryKeywordSet p.2).card : ℚ)
          ∧ 0 ≤ r.relevance_score ∧ r.relevance_score ≤ 1)
    ∧ (∀ p ∈ kbW.knowledge_data,
        extract_keywords (pys "Who is aris thorne?") ∩ entryKeywordSet p.2 = ∅ →
          ∀ r ∈ kbW.search (pys "Who is aris thorne?") 3 (mkRat 1 10),
            r.entry_id ≠ p.1)) :=
  ⟨by decide,
    C2_search_scores kbW (pys "Who is aris thorne?") 3 (mkRat 1 10) (by decide)⟩

/-! ### Claim C4 -/

/-- C4: the list returned by `search` contains only results whose score
clears the minimum relevance threshold, is sorted in non-increasing
score order, has length at most `max_results`, and is stable: for each
score value, the results carrying it form a prefix of the scored
candidates carrying it in store encounter order. -/
theorem C4_search_ordering (kb : SimpleKnowledgeBase) (query : PyStr)
    (max_results : Nat) (min_relevance_score : ℚ) :
    (∀ r ∈ kb.search query max_results min_relevance_score,
        min_relevance_score ≤ r.relevance_score)
    ∧ (kb.search query max_results min_relevance_score).Pairwise
        (fun a b => b.relevance_score ≤ a.relevance_score)
    ∧ (kb.search query max_results min_relevance_score).length ≤ max_results
    ∧ (∀ q : ℚ,
        (kb.search query max_results min_relevance_score).filter
            (fun r => decide (r.relevance_score = q))
          <+: (kb.searchCandidates query min_relevance_score).filter
            (fun r => decide (r.relevance_score = q))) := by
  refine ⟨?_, ?_, ?_, ?_⟩
  · intro r hr
    obtain ⟨p, hp, hre, hne, hmin⟩ := mem_searchCandidates (mem_search hr)
    subst hre
    exact hmin
  · unfold SimpleKnowledgeBase.search
    split
    · exact List.Pairwise.nil
    · exact List.Pairwise.sublist (List.take_sublist _ _)
        (List.sorted_insertionSort scoreGE _)
  · unfold SimpleKnowledgeBase.search
    split
    · simp
    · exact List.length_take_le _ _
  · intro q
    unfold SimpleKnowledgeBase.search
    split
    · simp
    · rw [← insertionSort_filter_eq
        (kb.searchCandidates query min_relevance_score) q]
      exact filter_take_isPrefix _ _ _

/-! ### Claim C6 -/

/-- A backend that always fails with a connection error, as when Ollama is
unreachable. -/
def failBackend : PyStr → Except BackendError PyStr :=
  fun _ =>
    Except.error (BackendError.connectionError
      (pys "Could not connect to Ollama"))

/-- A chatbot whose memory (limit one pair) is at capacity with an
assistant message in front, as arises after a failed turn with limit 1. -/
def botC6 : SimpleChatbot :=
  ⟨⟨1, [ChatMessage.mk (pys "assistant") (pys "old"),
        ChatMessage.mk (pys "user") (pys "q")]⟩,
   ⟨false, []⟩, 3, mkRat 1 10⟩

/-- C6 counterexample: the claim's conclusion that the assistant-message
count is unchanged by a failed turn is false: when the memory is at
capacity and its oldest message is an assistant message, appending the
user message evicts it, so the failed turn decreases the assistant
count. -/
theorem C6_failed_turn_counterexample :
    countRole (botC6.chat failBackend (pys "hello")).2.memory
        (pys "assistant")
      ≠ countRole botC6.memory (pys "assistant") := by
  decide

/-- C6 amended: when the backend fails with a caught error on a non-blank
turn, the turn returns (not raises) the apology string carrying the error
detail, the user message was appended to memory before the backend call
and nothing else was written (the post-state memory is exactly the
pre-state plus the user append), so no assistant message and no error
text is recorded; consequently the assistant-message count is unchanged
whenever the memory was below capacity — at capacity the user append may
evict an oldest assistant message. -/
theorem C6_failed_turn (bot : SimpleChatbot)
    (backend : PyStr → Except BackendError PyStr) (e : BackendError)
    (user_input : PyStr)
    (hnb : ¬ pyStripWs user_input = [])
    (hb : backend (SimpleChatbot.format_prompt
        { bot with
          memory := bot.memory.add_message (pys "user") user_input }
        user_input) = Except.error e) :
    (bot.chat backend user_input).1
        = pys "I'm sorry, I encountered an error: " ++ backendErrorMessage e
    ∧ (bot.chat backend user_input).2.memory
        = bot.memory.add_message (pys "user") user_input
    ∧ (bot.memory.messages.length < bot.memory.memory_limit * 2 →
        countRole (bot.chat backend user_input).2.memory (pys "assistant")
          = countRole bot.memory (pys "assistant")) := by
  have hchat : bot.chat backend user_input
      = (pys "I'm sorry, I encountered an error: " ++ backendErrorMessage e,
         { bot with
           memory := bot.memory.add_message (pys "user") user_input }) := by
    unfold SimpleChatbot.chat
    rw [if_neg hnb]
    dsimp only
    rw [hb]
  rw [hchat]
  refine ⟨rfl, rfl, ?_⟩
  intro hlen
  unfold countRole ConversationMemory.add_message
  have hdrop : (bot.memory.messages.length + 1) - bot.memory.memory_limit * 2
      = 0 := by omega
  simp only [hdrop, List.drop_zero, List.filter_append, List.length_append]
  have : (List.filter
      (fun msg => decide (msg.role = pys "assistant"))
      [ChatMessage.mk (pys "user") user_input]) = [] := by
    simp [pys]
  rw [this]
  simp

theorem C6_failed_turn_witness :
    (¬ pyStripWs (pys "hello") = []) ∧
    (failBackend (SimpleChatbot.format_prompt
        { botC6 with
          memory := botC6.memory.add_message (pys "user") (pys "hello") }
        (pys "hello"))
      = Except.error (BackendError.connectionError
          (pys "Could not connect to Ollama"))) ∧
    ((botC6.chat failBackend (pys "hello")).1
        = pys "I'm sorry, I encountered an error: "
            ++ backendErrorMessage (BackendError.connectionError
                (pys "Could not connect to Ollama"))
      ∧ (botC6.chat failBackend (pys "hello")).2.memory
          = botC6.memory.add_message (pys "user") (pys "hello")
      ∧ (botC6.memory.messages.length < botC6.memory.memory_limit * 2 →
          countRole (botC6.chat failBackend (pys "hello")).2.memory
              (pys "assistant")
            = countRole botC6.memory (pys "assistant"))) :=
  ⟨by decide, rfl,
    C6_failed_turn botC6 failBackend
      (BackendError.connectionError (pys "Could not connect to Ollama"))
      (pys "hello") (by decide) rfl⟩

/-! ### Claim C8 -/

/-- C8: the assembled prompt is the newline-join of the history block when
non-empty, then the retrieval context block when non-empty, then the
`User:` line, then the `Assistant:` cue; and when the query has no
keyword overlap with any stored entry, the search result list and the
context block are empty and the prompt is assembled without any RAG
context block (hence without the RAG marker lines, which only the context
block contributes). -/
theorem C8_prompt_assembly (bot : SimpleChatbot) (user_input : PyStr) :
    (bot.format_prompt user_input
        = pyJoin (pys "\n")
            ((if bot.memory.format_for_prompt true ≠ []
                then [bot.memory.format_for_prompt true] else [])
              ++ (if bot.get_rag_context user_input ≠ []
                    then [bot.get_rag_context user_input] else [])
              ++ [pys "User: " ++ user_input, pys "Assistant:"]))
    ∧ ((∀ p ∈ bot.knowledge_base.knowledge_data,
          extract_keywords user_input ∩ entryKeywordSet p.2 = ∅) →
        bot.knowledge_base.search user_input bot.rag_max_results
            bot.rag_min_relevance = []
          ∧ bot.get_rag_context user_input = []
          ∧ bot.format_prompt user_input
              = pyJoin (pys "\n")
                  ((if bot.memory.format_for_prompt true ≠ []
                      then [bot.memory.format_for_prompt true] else [])
                    ++ [pys "User: " ++ user_input, pys "Assistant:"])) := by
  have h1 : bot.format_prompt user_input
      = pyJoin (pys "\n")
          ((if bot.memory.format_for_prompt true ≠ []
              then [bot.memory.format_for_prompt true] else [])
            ++ (if bot.get_rag_context user_input ≠ []
                  then [bot.get_rag_context user_input] else [])
            ++ [pys "User: " ++ user_input, pys "Assistant:"]) := rfl
  refine ⟨h1, ?_⟩
  intro h
  have hcand : bot.knowledge_base.searchCandidates user_input
      bot.rag_min_relevance = [] := by
    unfold SimpleKnowledgeBase.searchCandidates
    apply List.filterMap_eq_nil_iff.mpr
    intro p hp
    simp [h p hp]
  have hsearch : bot.knowledge_base.search user_input bot.rag_max_results
      bot.rag_min_relevance = [] := by
    unfold SimpleKnowledgeBase.search
    split
    · rfl
    · rw [hcand]
      simp
  have hctx : bot.get_rag_context user_input = [] := by
    unfold SimpleChatbot.get_rag_context
    split
    · rfl
    · dsimp only
      rw [hsearch]
      simp
  refine ⟨hsearch, hctx, ?_⟩
  rw [h1, hctx]
  simp

/-- A chatbot over the two-entry witness store, with some history. -/
def botW8 : SimpleChatbot :=
  ⟨⟨2, [ChatMessage.mk (pys "system") (pys "Be helpful."),
        ChatMessage.mk (pys "user") (pys "hi")]⟩,
   kbW, 3, mkRat 1 10⟩

theorem C8_prompt_assembly_witness :
    (∀ p ∈ botW8.knowledge_base.knowledge_data,
        extract_keywords (pys "hola") ∩ entryKeywordSet p.2 = ∅) ∧
    (botW8.format_prompt (pys "hola")
        = pyJoin (pys "\n")
            ((if botW8.memory.format_for_prompt true ≠ []
                then [botW8.memory.format_for_prompt true] else [])
              ++ (if botW8.get_rag_context (pys "hola") ≠ []
                    then [botW8.get_rag_context (pys "hola")] else [])
              ++ [pys "User: " ++ pys "hola", pys "Assistant:"])) ∧
    (botW8.knowledge_base.search (pys "hola") botW8.rag_max_results
        botW8.rag_min_relevance = []
      ∧ botW8.get_rag_context (pys "hola") = []
      ∧ botW8.format_prompt (pys "hola")
          = pyJoin (pys "\n")
              ((if botW8.memory.format_for_prompt true ≠ []
                  then [botW8.memory.format_for_prompt true] else [])
                ++ [pys "User: " ++ pys "hola", pys "Assistant:"])) :=
  ⟨by decide, (C8_prompt_assembly botW8 (pys "hola")).1,
    (C8_prompt_assembly botW8 (pys "hola")).2 (by decide)⟩
